import Mathlib

/-!
Shallow embedding of the promise library (sunhengzhe/promise).

The repository contains two near-duplicate iterations of the same design:
  * `src/promise.js`       — capitalized internal names (`CreateResolvingFunctions`,
    `FulfillPromise`, `RejectPromise`, `getPromiseResolveFunctions().Function`, ...);
  * `src/unnamed/part_000` — lower-case internal names (`createResolvingFunctions`,
    `fulfillPromise`, `rejectPromise`, `promiseReactionJob`, ...).

We embed both where they differ.  Lower-case Lean names model `part_000`,
capitalized Lean names model `promise.js`, mirroring the files' own conventions.

Modelling decisions (all forced by the JavaScript semantics of the source):

  * Promises are identified by indices into `Machine.promises`.  Each
    resolving closure's `alreadySettled` / `AlreadyResolved` cell is a slot in
    `Machine.pairFlags` (in `part_000` one shared slot per resolving pair; in
    `promise.js` one slot per closure, because `CreateResolvingFunctions`
    copies the boolean `alreadyResolved` by value into two distinct closure
    variables).
  * `setImmediate` is the FIFO job queue `Machine.queue`; `runQueue` drains it
    with explicit fuel.
  * Both files create the reaction-list properties with
    `Object.create(proto, { ... : { value: [] } })` — the descriptors omit
    `writable`, so those two properties are non-writable, and the files run in
    sloppy mode (no "use strict").  Hence the assignments
    `promise.PromiseFulfillReactions = undefined` (and the `[[...]]` variants)
    at settlement are silent no-ops: the reaction lists are never actually
    cleared.  The embedding reproduces this: settlement stores the result and
    the new state but leaves the (already snapshot) reaction lists unchanged.
  * Handler functions are identified by an index into an ambient environment
    `H : Nat → Value → Except Value Value` (`.ok` = normal return, `.error` =
    throw); `Machine.log` records every user-handler invocation, which is the
    observable needed for the ordering/asynchrony claims.
  * A thrown JavaScript exception that escapes to the caller is modelled by an
    `Option Value` / `Except Value` result; `part_000`'s resolving functions
    are total (they never throw), which the embedding reflects in their types.
-/

/-- JavaScript values, as far as the resolution procedure can distinguish them.
`vPrim` covers primitives other than `null`/`undefined`; `vTypeError` is an
Error object; `vPromise pid` is the library's own promise number `pid`.
Object/function values carry their `then` shape: `vPlainObj` has no callable
`then`, `vThrowingThen` has a `then` accessor that throws `e`, and the
`vThenable*` constructors have a callable `then` whose behaviour when invoked
with `(resolve, reject)` is the stated one.  `isFunc` is `typeof v === "function"`
(true) versus `typeof v === "object"` (false). -/
inductive Value where
  | vUndefined
  | vNull
  | vPrim (n : Nat)
  | vTypeError (msg : String)
  | vPromise (pid : Nat)
  | vPlainObj (isFunc : Bool)
  | vThrowingThen (isFunc : Bool) (e : Value)
  | vThenableCallsResolve (isFunc : Bool) (v : Value)
  | vThenableCallsReject (isFunc : Bool) (v : Value)
  | vThenableThrows (isFunc : Bool) (e : Value)
  | vThenableNoop (isFunc : Bool)
  deriving DecidableEq, Repr

/-- The source's `isObject`: `typeof obj === 'object'`.  Note that
`typeof null === 'object'` in JavaScript, so `null` satisfies it. -/
def isObject : Value → Bool
  | .vNull => true
  | .vTypeError _ => true
  | .vPromise _ => true
  | .vPlainObj f => !f
  | .vThrowingThen f _ => !f
  | .vThenableCallsResolve f _ => !f
  | .vThenableCallsReject f _ => !f
  | .vThenableThrows f _ => !f
  | .vThenableNoop f => !f
  | _ => false

/-- The source's `isFunction` (part_000): `typeof func === 'function'`. -/
def isFunction : Value → Bool
  | .vPlainObj f => f
  | .vThrowingThen f _ => f
  | .vThenableCallsResolve f _ => f
  | .vThenableCallsReject f _ => f
  | .vThenableThrows f _ => f
  | .vThenableNoop f => f
  | _ => false

/-- Reading `v.then` and applying `isCallable` to the result.
`.error e` models the property access itself throwing `e` (a throwing accessor,
or a TypeError when reading a property of `null`/`undefined`);
`.ok true` means the access succeeded and yielded a callable;
`.ok false` means it yielded a non-callable (including `undefined`).
A promise of this library has the callable `Promise.prototype.then`. -/
def thenIsCallable : Value → Except Value Bool
  | .vNull => .error (.vTypeError "Cannot read properties of null")
  | .vUndefined => .error (.vTypeError "Cannot read properties of undefined")
  | .vPrim _ => .ok false
  | .vTypeError _ => .ok false
  | .vPromise _ => .ok true
  | .vPlainObj _ => .ok false
  | .vThrowingThen _ e => .error e
  | .vThenableCallsResolve _ _ => .ok true
  | .vThenableCallsReject _ _ => .ok true
  | .vThenableThrows _ _ => .ok true
  | .vThenableNoop _ => .ok true

/-- Promise states: `PromiseState` / `[[PromiseState]]` in the source. -/
inductive PState where
  | pending
  | fulfilled
  | rejected
  deriving DecidableEq, Repr

/-- Reaction types (`REACTION_TYPE` in part_000, string literals in promise.js). -/
inductive RType where
  | Fulfill
  | Reject
  deriving DecidableEq, Repr

/-- A handler stored in a reaction: either a user handler (index into the
ambient handler environment), or one of a resolving pair's own functions
(these become handlers during thenable assimilation, when
`then.call(promise, resolve, reject)` registers the pair's functions via
`performPromiseThen`). -/
inductive HandlerFn where
  | user (i : Nat)
  | pairResolve (pairId pid : Nat)
  | pairReject (pairId pid : Nat)
  deriving DecidableEq, Repr

/-- A promise capability: the promise together with its resolving pair
(`newPromiseCapability` in part_000, `NewPromiseCapability` in promise.js). -/
structure Capability where
  promise : Nat
  pairId : Nat
  deriving DecidableEq, Repr

/-- A reaction record `{capability, type, handler}`. -/
structure Reaction where
  capability : Capability
  type : RType
  handler : Option HandlerFn
  deriving DecidableEq, Repr

/-- The per-promise settlement record.  `fulfillReactions`/`rejectReactions`
are `Option` because the source *intends* to set them to `undefined` at
settlement (`none` models `undefined`); as explained in the header this write
is a silent no-op in the source, so `none` is in fact never stored. -/
structure PromiseRec where
  state : PState := .pending
  result : Option Value := none
  fulfillReactions : Option (List Reaction) := some []
  rejectReactions : Option (List Reaction) := some []
  isHandled : Bool := false
  deriving DecidableEq, Repr

/-- The record a freshly constructed promise starts with. -/
def PromiseRec.initial : PromiseRec := {}

/-- A pending job on the `setImmediate` queue: either a reaction job or a
thenable-assimilation job.  The thenable job re-derives the captured
`thenAction` from `resolution` (the access is deterministic in this model, so
re-reading it yields the value the source captured). -/
inductive Job where
  | reaction (r : Reaction) (arg : Value)
  | thenable (pid : Nat) (resolution : Value)
  deriving DecidableEq, Repr

/-- The global machine: all promise records, all `alreadySettled` cells, the
FIFO job queue, and the observation log of user-handler invocations. -/
structure Machine where
  promises : List PromiseRec
  pairFlags : List Bool
  queue : List Job
  log : List (Nat × Value)
  deriving DecidableEq, Repr

def Machine.getProm (m : Machine) (pid : Nat) : PromiseRec :=
  m.promises.getD pid PromiseRec.initial

def Machine.setProm (m : Machine) (pid : Nat) (r : PromiseRec) : Machine :=
  { m with promises := m.promises.set pid r }

/-- Reading an `alreadySettled` cell.  Out-of-range ids (never produced by the
operations) read as `true`, i.e. as inert. -/
def Machine.getFlag (m : Machine) (pairId : Nat) : Bool :=
  m.pairFlags.getD pairId true

def Machine.setFlag (m : Machine) (pairId : Nat) (b : Bool) : Machine :=
  { m with pairFlags := m.pairFlags.set pairId b }

def Machine.enqueue (m : Machine) (js : List Job) : Machine :=
  { m with queue := m.queue ++ js }

def Machine.pushLog (m : Machine) (i : Nat) (v : Value) : Machine :=
  { m with log := m.log ++ [(i, v)] }

/-- part_000 `triggerPromiseReactions` (identical in promise.js as
`TriggerPromiseReactions`): for each reaction, `setImmediate` a reaction job,
in list order. -/
def triggerPromiseReactions (m : Machine) (reactions : List Reaction)
    (argument : Value) : Machine :=
  m.enqueue (reactions.map fun r => Job.reaction r argument)

/-- part_000 `fulfillPromise` (lines 123–136): no-op unless Pending; snapshot
the fulfill reactions, store the result, set the state, schedule the
reactions.  The source's two assignments clearing the reaction lists are
silent no-ops (non-writable properties, sloppy mode), so the lists stay. -/
def fulfillPromise (m : Machine) (pid : Nat) (value : Value) : Machine :=
  let pr := m.getProm pid
  if pr.state ≠ PState.pending then m
  else
    let reactions := pr.fulfillReactions.getD []
    let m1 := m.setProm pid { pr with result := some value, state := .fulfilled }
    triggerPromiseReactions m1 reactions value

/-- part_000 `rejectPromise` (lines 138–155): the mirror image of
`fulfillPromise` (its unhandled-rejection tracker is commented out in the
source). -/
def rejectPromise (m : Machine) (pid : Nat) (reason : Value) : Machine :=
  let pr := m.getProm pid
  if pr.state ≠ PState.pending then m
  else
    let reactions := pr.rejectReactions.getD []
    let m1 := m.setProm pid { pr with result := some reason, state := .rejected }
    triggerPromiseReactions m1 reactions reason

/-- part_000 `createResolvingFunctions.resolve` (lines 72–105).  `pairId` is
the pair's shared `alreadySettled` cell; `pid` the captured promise.  The
function is total: every error raised while inspecting `resolution.then` is
caught and converted into a rejection. -/
def resolveFn (m : Machine) (pairId pid : Nat) (resolution : Value) : Machine :=
  if m.getFlag pairId then m
  else
    let m1 := m.setFlag pairId true
    if resolution = Value.vPromise pid then
      rejectPromise m1 pid (.vTypeError "resolution === promise")
    else if resolution = Value.vNull then
      fulfillPromise m1 pid resolution
    else if !isObject resolution && !isFunction resolution then
      fulfillPromise m1 pid resolution
    else
      match thenIsCallable resolution with
      | .error e => rejectPromise m1 pid e
      | .ok false => fulfillPromise m1 pid resolution
      | .ok true => m1.enqueue [Job.thenable pid resolution]

/-- part_000 `createResolvingFunctions.reject` (lines 107–115): same shared
`alreadySettled` cell as the pair's `resolve`. -/
def rejectFn (m : Machine) (pairId pid : Nat) (reason : Value) : Machine :=
  if m.getFlag pairId then m
  else rejectPromise (m.setFlag pairId true) pid reason

/-- The `Promise` constructor (part_000 lines 26–61; identical guard structure
in promise.js lines 11–46).  `usedNew` models `new.target` being set;
`executorCallable` models `isCallable(executor)`.  The executor body is the
parameter `run`, receiving the machine and the new promise's id and pair id
and returning the new machine plus `some err` if it threw.  An `.error`
result models a `TypeError` raised synchronously to the caller — no promise
record escapes to the caller in that case.  On success the allocated promise
id and its resolving pair's cell id are returned. -/
def PromiseConstructor (m : Machine) (usedNew executorCallable : Bool)
    (run : Machine → Nat → Nat → Machine × Option Value) :
    Except Value (Machine × Nat × Nat) :=
  if usedNew = false then
    .error (.vTypeError "undefined is not a promise")
  else if executorCallable = false then
    .error (.vTypeError "Promise resolver is not a function")
  else
    let pid := m.promises.length
    let m1 := { m with promises := m.promises ++ [PromiseRec.initial] }
    let pairId := m1.pairFlags.length
    let m2 := { m1 with pairFlags := m1.pairFlags ++ [false] }
    match run m2 pid pairId with
    | (m3, none) => .ok (m3, pid, pairId)
    | (m3, some err) => .ok (rejectFn m3 pairId pid err, pid, pairId)

/-- part_000 `newPromiseCapability` (lines 235–266): constructs a promise with
an executor that stores the resolving pair into the capability (in the model
the pair is the allocated `(pid, pairId)`; the capability executor touches no
machine state and never throws, so its double-binding TypeError guards are
unreachable here). -/
def newPromiseCapability (m : Machine) : Machine × Capability :=
  match PromiseConstructor m true true (fun mm _ _ => (mm, none)) with
  | .ok (m1, pid, pairId) => (m1, ⟨pid, pairId⟩)
  | .error _ => (m, ⟨0, 0⟩)   -- unreachable: both guards pass

/-- part_000 `performPromiseThen` (lines 276–321).  `onFulfilled`/`onRejected`
are already coerced: `none` models a non-callable argument having been
replaced by `undefined` (lines 277–283).  The three state cases: Pending
pushes both reactions; a settled state schedules the matching reaction job
with the stored result.  Line 318 of the source assigns to the plain property
`PromiseIsHandled`, not the `[[PromiseIsHandled]]` slot the record actually
uses, so the record's handled flag is in fact unchanged — the model reflects
that by not touching `isHandled`.  Returns the capability's promise. -/
def performPromiseThen (m : Machine) (pid : Nat)
    (onFulfilled onRejected : Option HandlerFn) (resultCapability : Capability) :
    Machine × Nat :=
  let fulfillReaction : Reaction := ⟨resultCapability, .Fulfill, onFulfilled⟩
  let rejectReaction : Reaction := ⟨resultCapability, .Reject, onRejected⟩
  let pr := m.getProm pid
  match pr.state with
  | .pending =>
      let pr1 := { pr with
        fulfillReactions := some (pr.fulfillReactions.getD [] ++ [fulfillReaction]),
        rejectReactions := some (pr.rejectReactions.getD [] ++ [rejectReaction]) }
      (m.setProm pid pr1, resultCapability.promise)
  | .fulfilled =>
      (m.enqueue [Job.reaction fulfillReaction (pr.result.getD .vUndefined)],
       resultCapability.promise)
  | .rejected =>
      (m.enqueue [Job.reaction rejectReaction (pr.result.getD .vUndefined)],
       resultCapability.promise)

/-- part_000 `Promise.prototype.then` (lines 216–225): build a fresh
capability and delegate to `performPromiseThen`. -/
def thenOp (m : Machine) (pid : Nat) (onFulfilled onRejected : Option HandlerFn) :
    Machine × Nat :=
  let (m1, cap) := newPromiseCapability m
  performPromiseThen m1 pid onFulfilled onRejected cap

/-- Invoking a stored handler on `argument`: a user handler consults the
ambient environment `H` (recording the invocation in the log); a resolving
function used as a handler runs and returns `undefined` normally. -/
def invokeHandler (H : Nat → Value → Except Value Value) (m : Machine)
    (h : HandlerFn) (argument : Value) : Machine × Except Value Value :=
  match h with
  | .user i => (m.pushLog i argument, H i argument)
  | .pairResolve pairId pid => (resolveFn m pairId pid argument, .ok .vUndefined)
  | .pairReject pairId pid => (rejectFn m pairId pid argument, .ok .vUndefined)

/-- part_000 `promiseReactionJob` (lines 176–197): without a handler,
pass `argument` through to the capability's resolve (Fulfill) or reject
(Reject); with a handler, resolve with its return value, or reject with what
it threw.  (The source's `!handler` test agrees with `handler === undefined`
here: the only stored handlers are functions, which are truthy.) -/
def promiseReactionJob (H : Nat → Value → Except Value Value) (m : Machine)
    (reaction : Reaction) (argument : Value) : Machine :=
  match reaction.handler with
  | none =>
      match reaction.type with
      | .Fulfill => resolveFn m reaction.capability.pairId reaction.capability.promise argument
      | .Reject => rejectFn m reaction.capability.pairId reaction.capability.promise argument
  | some h =>
      match invokeHandler H m h argument with
      | (m1, .ok handlerResult) =>
          resolveFn m1 reaction.capability.pairId reaction.capability.promise handlerResult
      | (m1, .error e) =>
          rejectFn m1 reaction.capability.pairId reaction.capability.promise e

/-- part_000 `promiseResolveThenableJob` (lines 207–214): create a fresh
resolving pair for `promise` and invoke the captured `then` with the thenable
as receiver; a synchronous throw is routed to the fresh reject.  The
behaviour of the callable `then` is the one recorded in the thenable value;
when the resolution is one of this library's promises, `then` is
`Promise.prototype.then`, registering the fresh pair as handlers. -/
def promiseResolveThenableJob (m : Machine) (pid : Nat) (resolution : Value) :
    Machine :=
  let pairId := m.pairFlags.length
  let m1 := { m with pairFlags := m.pairFlags ++ [false] }
  match resolution with
  | .vThenableCallsResolve _ v => resolveFn m1 pairId pid v
  | .vThenableCallsReject _ v => rejectFn m1 pairId pid v
  | .vThenableThrows _ e => rejectFn m1 pairId pid e
  | .vThenableNoop _ => m1
  | .vPromise src =>
      (thenOp m1 src (some (.pairResolve pairId pid)) (some (.pairReject pairId pid))).1
  | _ => m1   -- unreachable: only values with a callable then are scheduled

/-- Executing one queued job. -/
def executeJob (H : Nat → Value → Except Value Value) (m : Machine) :
    Job → Machine
  | .reaction r arg => promiseReactionJob H m r arg
  | .thenable pid resolution => promiseResolveThenableJob m pid resolution

/-- Draining the FIFO `setImmediate` queue, with fuel. -/
def runQueue (H : Nat → Value → Except Value Value) : Nat → Machine → Machine
  | 0, m => m
  | fuel + 1, m =>
      match m.queue with
      | [] => m
      | j :: rest => runQueue H fuel (executeJob H { m with queue := rest } j)

/-- part_000 `Promise.resolve` (lines 323–329): build a capability, run its
resolve on `x`, return the capability's promise. -/
def promiseResolveStatic (m : Machine) (x : Value) : Machine × Nat :=
  let (m1, cap) := newPromiseCapability m
  (resolveFn m1 cap.pairId cap.promise x, cap.promise)

/-!
The promise.js variant.  It differs from part_000 in the resolving functions
and in the settlement operations:

  * `CreateResolvingFunctions` (promise.js lines 117–132) declares
    `const alreadyResolved = false` and hands it to
    `resolve.setAlreadyResolved` and `reject.setAlreadyResolved`; each of
    those stores the *boolean value* into its own closure variable
    `AlreadyResolved` (`getPromiseResolveFunctions` / `getPromiseRejectFunctions`
    each declare their own `let AlreadyResolved`).  The two closures therefore
    have two independent cells, not a shared one.
  * `FulfillPromise` / `RejectPromise` (lines 193–216) have no Pending guard.
  * The resolve closure (lines 140–168) has no `null` check — and since
    `typeof null === 'object'`, resolving with `null` reads `null.then` and
    the resulting TypeError propagates to the caller — and no try/catch around
    the `resolution.then` access, so a throwing accessor also propagates.
-/

/-- promise.js `FulfillPromise` (lines 193–201): like part_000's
`fulfillPromise` but without the Pending guard.  As in part_000, the
assignments clearing the two reaction lists are silent no-ops. -/
def FulfillPromise (m : Machine) (pid : Nat) (value : Value) : Machine :=
  let pr := m.getProm pid
  let reactions := pr.fulfillReactions.getD []
  let m1 := m.setProm pid { pr with result := some value, state := .fulfilled }
  triggerPromiseReactions m1 reactions value

/-- promise.js `RejectPromise` (lines 203–216): no Pending guard; the
unhandled-rejection tracker only logs to the console, which is unobservable
here. -/
def RejectPromise (m : Machine) (pid : Nat) (reason : Value) : Machine :=
  let pr := m.getProm pid
  let reactions := pr.rejectReactions.getD []
  let m1 := m.setProm pid { pr with result := some reason, state := .rejected }
  triggerPromiseReactions m1 reactions reason

/-- promise.js resolve closure, `getPromiseResolveFunctions().Function`
(lines 140–168).  `flagId` is this closure's own `AlreadyResolved` cell.
Returns the machine and `some e` when an exception `e` escapes to the caller
(the `resolution.then` access is not guarded by any try/catch in this file). -/
def PromiseResolveFunction (m : Machine) (flagId pid : Nat) (resolution : Value) :
    Machine × Option Value :=
  if m.getFlag flagId then (m, none)
  else
    let m1 := m.setFlag flagId true
    if resolution = Value.vPromise pid then
      (RejectPromise m1 pid (.vTypeError "resolution === promise"), none)
    else if !isObject resolution then
      (FulfillPromise m1 pid resolution, none)
    else
      match thenIsCallable resolution with
      | .error e => (m1, some e)        -- uncaught: raised back to the caller
      | .ok false => (FulfillPromise m1 pid resolution, none)
      | .ok true => (m1.enqueue [Job.thenable pid resolution], none)

/-- promise.js reject closure, `getPromiseRejectFunctions().Function`
(lines 178–189), with its own `AlreadyResolved` cell. -/
def PromiseRejectFunction (m : Machine) (flagId pid : Nat) (reason : Value) :
    Machine :=
  if m.getFlag flagId then m
  else RejectPromise (m.setFlag flagId true) pid reason

/-- promise.js `CreateResolvingFunctions` (lines 117–132): allocates the two
*independent* `AlreadyResolved` cells (both initialized from the boolean
`alreadyResolved = false`) and returns (resolve cell id, reject cell id). -/
def CreateResolvingFunctions (m : Machine) : Machine × Nat × Nat :=
  let resolveFlag := m.pairFlags.length
  let m1 := { m with pairFlags := m.pairFlags ++ [false, false] }
  (m1, resolveFlag, resolveFlag + 1)

/-- promise.js `NewPromiseCapability` (lines 305–336): `new Promise(executor)`
with the capability-storing executor; the constructor allocates the record and
its resolving functions.  Returns (machine, promise id, resolve cell id,
reject cell id). -/
def NewPromiseCapability (m : Machine) : Machine × Nat × Nat × Nat :=
  let pid := m.promises.length
  let m1 := { m with promises := m.promises ++ [PromiseRec.initial] }
  let (m2, resolveFlag, rejectFlag) := CreateResolvingFunctions m1
  (m2, pid, resolveFlag, rejectFlag)

/-- promise.js `Promise.resolve` (lines 59–65): build a capability and call
its `Resolve` with `x`.  An exception thrown by the resolve closure
propagates out of `Promise.resolve` (returned as `some e`). -/
def PromiseResolveStatic (m : Machine) (x : Value) :
    Machine × Nat × Option Value :=
  let (m1, pid, resolveFlag, _) := NewPromiseCapability m
  let (m2, thrown) := PromiseResolveFunction m1 resolveFlag pid x
  (m2, pid, thrown)

/-!  Concrete machines used by the claim theorems and witnesses. -/

/-- The empty machine. -/
def mEmpty : Machine := ⟨[], [], [], []⟩

/-- One freshly constructed pending promise (id 0) with its part_000
resolving pair (shared cell 0). -/
def mOnePending : Machine := ⟨[PromiseRec.initial], [false], [], []⟩

/-- One freshly constructed pending promise (id 0) with its promise.js
resolving functions (resolve cell 0, reject cell 1 — two independent cells). -/
def mOnePendingJs : Machine := ⟨[PromiseRec.initial], [false, false], [], []⟩

/-!  C1. -/

/-- C1: the claim — that the resolve and reject closures produced by the
resolving-pair constructor share one `alreadySettled` flag, making every call
after the first a no-op — is right for part_000's `createResolvingFunctions`
but wrong for promise.js's `CreateResolvingFunctions`: there each closure has
its own `AlreadyResolved` cell, so on a fresh promise.js pair, `Resolve(1)`
followed by `Reject(2)` is not a no-op — the second call re-settles the
promise, flipping its state to rejected and its result to 2. -/
theorem claim1_js_flags_not_shared :
    (let n1 := resolveFn mOnePending 0 0 (.vPrim 1)
     rejectFn n1 0 0 (.vPrim 2) = n1)
    ∧
    (let m1 := (PromiseResolveFunction mOnePendingJs 0 0 (.vPrim 1)).1
     ((m1.getProm 0).state = .fulfilled ∧ (m1.getProm 0).result = some (.vPrim 1))
     ∧
     (let m2 := PromiseRejectFunction m1 1 0 (.vPrim 2)
      (m2.getProm 0).state = .rejected ∧ (m2.getProm 0).result = some (.vPrim 2))) := by
  decide

/-!  C2. -/

/-- C2: the claim — settlement is monotonic and a second settlement attempt
leaves state and result unchanged — is right for part_000's guarded
`fulfillPromise`/`rejectPromise` but wrong for promise.js's `FulfillPromise`/
`RejectPromise`, which have no Pending guard: after `FulfillPromise(p, 1)`,
`RejectPromise(p, 2)` overwrites both the state and the result. -/
theorem claim2_js_settlement_not_monotonic :
    (let n1 := fulfillPromise mOnePending 0 (.vPrim 1)
     rejectPromise n1 0 (.vPrim 2) = n1 ∧ fulfillPromise n1 0 (.vPrim 3) = n1)
    ∧
    (let k1 := FulfillPromise mOnePending 0 (.vPrim 1)
     ((k1.getProm 0).state = .fulfilled ∧ (k1.getProm 0).result = some (.vPrim 1))
     ∧
     (let k2 := RejectPromise k1 0 (.vPrim 2)
      (k2.getProm 0).state = .rejected ∧ (k2.getProm 0).result = some (.vPrim 2))) := by
  decide

/-!  C3. -/

/-- C3: the claim — resolving with `null`, a primitive, or a non-thenable
object/function fulfills directly, schedules nothing and throws nothing — is
right for part_000's resolve, but promise.js's resolve closure breaks it at
`null`: `typeof null === 'object'`, so it falls into the object branch, reads
`null.then`, and the TypeError escapes to the caller while the promise stays
pending.  The part_000 conjuncts also record that no assimilation job is
scheduled (`queue` stays empty). -/
theorem claim3_js_resolve_null_throws :
    (let a := resolveFn mOnePending 0 0 .vNull
     (a.getProm 0).state = .fulfilled ∧ (a.getProm 0).result = some .vNull ∧ a.queue = [])
    ∧
    (let b := resolveFn mOnePending 0 0 (.vPrim 7)
     (b.getProm 0).state = .fulfilled ∧ (b.getProm 0).result = some (.vPrim 7) ∧ b.queue = [])
    ∧
    (let c := resolveFn mOnePending 0 0 (.vPlainObj false)
     (c.getProm 0).state = .fulfilled
       ∧ (c.getProm 0).result = some (.vPlainObj false) ∧ c.queue = [])
    ∧
    (let j := PromiseResolveFunction mOnePendingJs 0 0 .vNull
     j.2 = some (.vTypeError "Cannot read properties of null")
       ∧ (j.1.getProm 0).state = .pending) := by
  decide

/-!  C4. -/

/-- C4: the claim — an error thrown by the `then` property access is caught
and converted into a rejection, never raised to resolve's caller — is right
for part_000 (the access sits in a try/catch), but promise.js has no
try/catch there: the thrown value escapes to the caller and the promise stays
pending instead of rejecting. -/
theorem claim4_js_then_access_not_caught :
    (let a := resolveFn mOnePending 0 0 (.vThrowingThen false (.vPrim 7))
     (a.getProm 0).state = .rejected ∧ (a.getProm 0).result = some (.vPrim 7))
    ∧
    (let j := PromiseResolveFunction mOnePendingJs 0 0 (.vThrowingThen false (.vPrim 7))
     j.2 = some (.vPrim 7) ∧ (j.1.getProm 0).state = .pending) := by
  decide

/-!  C9. -/

/-- C9: invoking the constructor as a plain call (no `new.target`) raises a
TypeError synchronously, and invoking it with a non-callable executor raises
a TypeError synchronously; the `.error` results carry no machine or promise
id, so no future is produced in either case.  (The guards are lines 26–33 of
part_000 and lines 11–18 of promise.js, identical.) -/
theorem claim9_constructor_guards (m : Machine) (ec : Bool)
    (run : Machine → Nat → Nat → Machine × Option Value) :
    PromiseConstructor m false ec run
      = .error (.vTypeError "undefined is not a promise")
    ∧ PromiseConstructor m true false run
      = .error (.vTypeError "Promise resolver is not a function") := by
  constructor <;> rfl

/-!  C10. -/

/-- C10: the claim — the static resolve helper returns an already-Fulfilled
future holding exactly `v` for every non-thenable `v` (including `null`), and
a still-Pending future for a thenable — is right for part_000's
`Promise.resolve`, but promise.js's `Promise.resolve` breaks it at `null`:
the resolve closure throws a TypeError which propagates out of
`Promise.resolve`, and the would-be future is left pending.  The first
conjuncts record part_000's behaviour (fulfilled-at-return for `null` and a
primitive, pending-at-return with an assimilation job queued for a thenable). -/
theorem claim10_js_static_resolve_null_throws :
    (let a := promiseResolveStatic mEmpty .vNull
     ((a.1.getProm a.2).state = .fulfilled ∧ (a.1.getProm a.2).result = some .vNull))
    ∧
    (let b := promiseResolveStatic mEmpty (.vPrim 5)
     ((b.1.getProm b.2).state = .fulfilled ∧ (b.1.getProm b.2).result = some (.vPrim 5)))
    ∧
    (let c := promiseResolveStatic mEmpty (.vThenableCallsResolve false (.vPrim 5))
     ((c.1.getProm c.2).state = .pending
        ∧ c.1.queue = [Job.thenable 0 (.vThenableCallsResolve false (.vPrim 5))]))
    ∧
    (let j := PromiseResolveStatic mEmpty .vNull
     j.2.2 = some (.vTypeError "Cannot read properties of null")
       ∧ (j.1.getProm j.2.1).state = .pending) := by
  decide

/-!  Helper lemmas about the machine accessors. -/

theorem listGetD_set_lt {α : Type} (l : List α) (i : Nat) (x d : α)
    (h : i < l.length) : (l.set i x).getD i d = x := by
  induction l generalizing i with
  | nil => simp at h
  | cons a t ih =>
    cases i with
    | zero => rfl
    | succ n => simpa using ih n (by simpa using h)

theorem getProm_setFlag (m : Machine) (p : Nat) (b : Bool) (pid : Nat) :
    ((m.setFlag p b).getProm pid) = m.getProm pid := rfl

theorem getProm_enqueue (m : Machine) (js : List Job) (pid : Nat) :
    ((m.enqueue js).getProm pid) = m.getProm pid := rfl

theorem getProm_trigger (m : Machine) (rs : List Reaction) (a : Value) (pid : Nat) :
    ((triggerPromiseReactions m rs a).getProm pid) = m.getProm pid := rfl

theorem getProm_setProm_self (m : Machine) (pid : Nat) (r : PromiseRec)
    (h : pid < m.promises.length) : ((m.setProm pid r).getProm pid) = r :=
  listGetD_set_lt _ _ _ _ h

/-!  C5. -/

/-- Refinement model of the reaction job, written from the spec's words
(§4.4 `reactionJob`): "If `reaction.handler` is absent: propagate `argument`
directly to the downstream capability — call its resolve if `type = Fulfill`,
its reject if `type = Reject`.  Else: invoke `handler(argument)`.  On normal
return, call the downstream capability's resolve with the return value.  On a
thrown error, call the downstream capability's reject with that error." -/
def reactionJobSpecModel (H : Nat → Value → Except Value Value) (m : Machine)
    (reaction : Reaction) (argument : Value) : Machine :=
  let cap := reaction.capability
  match reaction.handler with
  | none =>
      if reaction.type = RType.Fulfill then resolveFn m cap.pairId cap.promise argument
      else rejectFn m cap.pairId cap.promise argument
  | some h =>
      let (m1, outcome) := invokeHandler H m h argument
      match outcome with
      | .ok returnValue => resolveFn m1 cap.pairId cap.promise returnValue
      | .error thrown => rejectFn m1 cap.pairId cap.promise thrown

/-- C5: part_000's `promiseReactionJob` coincides with the spec's description
of the reaction job on every machine, reaction and argument; and, concretely,
a Reject-type reaction whose handler returns normally settles the downstream
future Fulfilled with the handler's return value (the "converts the chain
back to fulfilled" case), while a throwing handler settles it Rejected. -/
theorem claim5_reaction_job_refines_spec :
    (∀ (H : Nat → Value → Except Value Value) (m : Machine)
       (reaction : Reaction) (argument : Value),
       promiseReactionJob H m reaction argument
         = reactionJobSpecModel H m reaction argument)
    ∧
    (let r : Reaction := ⟨⟨0, 0⟩, .Reject, some (.user 3)⟩
     let a := promiseReactionJob (fun _ _ => .ok (.vPrim 5)) mOnePending r (.vPrim 1)
     (a.getProm 0).state = .fulfilled ∧ (a.getProm 0).result = some (.vPrim 5))
    ∧
    (let r : Reaction := ⟨⟨0, 0⟩, .Fulfill, some (.user 3)⟩
     let b := promiseReactionJob (fun _ _ => .error (.vPrim 6)) mOnePending r (.vPrim 1)
     (b.getProm 0).state = .rejected ∧ (b.getProm 0).result = some (.vPrim 6)) := by
  refine ⟨fun H m reaction argument => ?_, by decide, by decide⟩
  unfold promiseReactionJob reactionJobSpecModel
  rcases reaction with ⟨cap, ty, handler⟩
  cases handler with
  | none => cases ty <;> rfl
  | some h => cases hh : invokeHandler H m h argument with
    | mk m1 outcome => cases outcome <;> simp [hh]

/-!  C7. -/

/-- C7: on a fresh resolving pair for a pending future, calling resolve with
the future itself settles it Rejected with the distinguished self-resolution
TypeError; it does not fulfill, and (being a total function here, mirroring
the source's early-return structure) raises nothing to the caller. -/
theorem claim7_self_resolution_rejects (m : Machine) (pairId pid : Nat)
    (hflag : m.getFlag pairId = false)
    (hpend : (m.getProm pid).state = .pending)
    (hlen : pid < m.promises.length) :
    ((resolveFn m pairId pid (.vPromise pid)).getProm pid).state = .rejected
    ∧ ((resolveFn m pairId pid (.vPromise pid)).getProm pid).result
        = some (.vTypeError "resolution === promise") := by
  have hstep : resolveFn m pairId pid (.vPromise pid)
      = rejectPromise (m.setFlag pairId true) pid (.vTypeError "resolution === promise") := by
    unfold resolveFn
    rw [hflag]
    simp
  rw [hstep]
  unfold rejectPromise
  rw [getProm_setFlag]
  rw [if_neg (by simp [hpend])]
  have hlen1 : pid < (m.setFlag pairId true).promises.length := hlen
  simp only [getProm_trigger]
  rw [getProm_setProm_self _ _ _ hlen1]
  exact ⟨rfl, rfl⟩

/-- Witness for C7 at a concrete input: promise 0 pending, fresh pair 0. -/
theorem claim7_self_resolution_rejects_witness :
    ((resolveFn mOnePending 0 0 (.vPromise 0)).getProm 0).state = .rejected
    ∧ ((resolveFn mOnePending 0 0 (.vPromise 0)).getProm 0).result
        = some (.vTypeError "resolution === promise") :=
  claim7_self_resolution_rejects mOnePending 0 0 (by decide) (by decide) (by decide)

/-!  Log- and queue-shape lemmas, used by the temporal claims: none of the
settlement operations ever runs a user handler (the log is untouched), and
they only ever append to the job queue. -/

theorem log_fulfillPromise (m : Machine) (pid : Nat) (v : Value) :
    (fulfillPromise m pid v).log = m.log := by
  unfold fulfillPromise
  dsimp only
  split <;> rfl

theorem log_rejectPromise (m : Machine) (pid : Nat) (v : Value) :
    (rejectPromise m pid v).log = m.log := by
  unfold rejectPromise
  dsimp only
  split <;> rfl

theorem log_resolveFn (m : Machine) (pairId pid : Nat) (v : Value) :
    (resolveFn m pairId pid v).log = m.log := by
  unfold resolveFn
  dsimp only
  repeat' split
  all_goals first
    | rfl
    | (rw [log_rejectPromise]; rfl)
    | (rw [log_fulfillPromise]; rfl)

theorem log_rejectFn (m : Machine) (pairId pid : Nat) (v : Value) :
    (rejectFn m pairId pid v).log = m.log := by
  unfold rejectFn
  split
  · rfl
  · rw [log_rejectPromise]; rfl

theorem queue_fulfillPromise (m : Machine) (pid : Nat) (v : Value) :
    ∃ tl, (fulfillPromise m pid v).queue = m.queue ++ tl := by
  unfold fulfillPromise
  dsimp only
  split
  · exact ⟨[], (List.append_nil _).symm⟩
  · exact ⟨_, rfl⟩

theorem queue_rejectPromise (m : Machine) (pid : Nat) (v : Value) :
    ∃ tl, (rejectPromise m pid v).queue = m.queue ++ tl := by
  unfold rejectPromise
  dsimp only
  split
  · exact ⟨[], (List.append_nil _).symm⟩
  · exact ⟨_, rfl⟩

theorem queue_resolveFn (m : Machine) (pairId pid : Nat) (v : Value) :
    ∃ tl, (resolveFn m pairId pid v).queue = m.queue ++ tl := by
  unfold resolveFn
  dsimp only
  repeat' split
  all_goals first
    | exact ⟨[], (List.append_nil _).symm⟩
    | exact queue_rejectPromise _ _ _
    | exact queue_fulfillPromise _ _ _
    | exact ⟨_, rfl⟩

theorem queue_rejectFn (m : Machine) (pairId pid : Nat) (v : Value) :
    ∃ tl, (rejectFn m pairId pid v).queue = m.queue ++ tl := by
  unfold rejectFn
  split
  · exact ⟨[], (List.append_nil _).symm⟩
  · exact queue_rejectPromise _ _ _

/-- Executing a reaction job whose handler is the user handler `i` appends
exactly the invocation `(i, arg)` to the log and only appends to the queue,
on every machine. -/
theorem executeJob_user (H : Nat → Value → Except Value Value) (m : Machine)
    (cap : Capability) (ty : RType) (i : Nat) (arg : Value) :
    (executeJob H m (.reaction ⟨cap, ty, some (.user i)⟩ arg)).log
        = m.log ++ [(i, arg)]
    ∧ ∃ tl, (executeJob H m (.reaction ⟨cap, ty, some (.user i)⟩ arg)).queue
        = m.queue ++ tl := by
  show (promiseReactionJob H m ⟨cap, ty, some (.user i)⟩ arg).log = _
    ∧ ∃ tl, (promiseReactionJob H m ⟨cap, ty, some (.user i)⟩ arg).queue = _
  unfold promiseReactionJob invokeHandler
  cases hH : H i arg with
  | ok r =>
      simp only [hH]
      exact ⟨log_resolveFn _ _ _ _, queue_resolveFn _ _ _ _⟩
  | error e =>
      simp only [hH]
      exact ⟨log_rejectFn _ _ _ _, queue_rejectFn _ _ _ _⟩

theorem runQueue_zero (H : Nat → Value → Except Value Value) (m : Machine) :
    runQueue H 0 m = m := rfl

theorem runQueue_cons (H : Nat → Value → Except Value Value) (n : Nat)
    (m : Machine) (j : Job) (rest : List Job) (h : m.queue = j :: rest) :
    runQueue H (n + 1) m
      = runQueue H n (executeJob H { m with queue := rest } j) := by
  obtain ⟨ps, fl, q, lg⟩ := m
  cases h
  rfl

theorem log_performPromiseThen (m : Machine) (pid : Nat)
    (onF onR : Option HandlerFn) (cap : Capability) :
    ((performPromiseThen m pid onF onR cap).1).log = m.log := by
  unfold performPromiseThen
  dsimp only
  split <;> rfl

theorem log_thenOp (m : Machine) (pid : Nat) (onF onR : Option HandlerFn) :
    ((thenOp m pid onF onR).1).log = m.log := by
  have h : thenOp m pid onF onR
      = performPromiseThen
          ⟨m.promises ++ [PromiseRec.initial], m.pairFlags ++ [false], m.queue, m.log⟩
          pid onF onR ⟨m.promises.length, m.pairFlags.length⟩ := rfl
  rw [h, log_performPromiseThen]

/-!  C6. -/

/-- C6: (i) on every machine, registering handlers via `then` leaves the
invocation log unchanged — no handler ever runs synchronously inside the
`then` call, including on an already-settled future (where a job is only
scheduled); (ii) in the concrete two-registration scenario — a pending
future, `then` with `h1`, then `then` with `h2`, in the same turn — nothing
is even scheduled while the future is pending (log and queue stay empty), and
once the future fulfills with any value `v`, draining the job queue invokes
`h1` strictly before `h2` (for every handler environment `H`: the log after
two job steps is exactly `[(h1, v), (h2, v)]`). -/
theorem claim6_then_order_and_deferral :
    (∀ (m : Machine) (pid : Nat) (onF onR : Option HandlerFn),
       ((thenOp m pid onF onR).1).log = m.log)
    ∧
    (∀ (h1 h2 : Nat) (v : Value) (H : Nat → Value → Except Value Value),
       (((thenOp ((thenOp mOnePending 0 (some (.user h1)) none).1)
            0 (some (.user h2)) none).1).log = []
        ∧ ((thenOp ((thenOp mOnePending 0 (some (.user h1)) none).1)
            0 (some (.user h2)) none).1).queue = [])
       ∧ (runQueue H 2
            (fulfillPromise
              ((thenOp ((thenOp mOnePending 0 (some (.user h1)) none).1)
                 0 (some (.user h2)) none).1) 0 v)).log
           = [(h1, v), (h2, v)]) := by
  refine ⟨fun m pid onF onR => log_thenOp m pid onF onR,
          fun h1 h2 v H => ⟨⟨rfl, rfl⟩, ?_⟩⟩
  set m3 := fulfillPromise
      ((thenOp ((thenOp mOnePending 0 (some (.user h1)) none).1)
         0 (some (.user h2)) none).1) 0 v with hm3
  set j1 : Job := .reaction ⟨⟨1, 1⟩, .Fulfill, some (.user h1)⟩ v with hj1
  set j2 : Job := .reaction ⟨⟨2, 2⟩, .Fulfill, some (.user h2)⟩ v with hj2
  have hq3 : m3.queue = j1 :: [j2] := rfl
  have hl3 : m3.log = [] := rfl
  have step1 := runQueue_cons H 1 m3 j1 [j2] hq3
  obtain ⟨hAl, tlA, hAq⟩ :=
    executeJob_user H { m3 with queue := [j2] } ⟨1, 1⟩ .Fulfill h1 v
  set mA := executeJob H { m3 with queue := [j2] } j1 with hmA
  have hAl' : mA.log = [(h1, v)] := by
    rw [hmA, hj1, hAl]
    rw [show ({ m3 with queue := [j2] } : Machine).log = m3.log from rfl, hl3]
    rfl
  have hAq' : mA.queue = j2 :: tlA := by
    rw [hmA, hj1, hAq]
    rfl
  have step2 := runQueue_cons H 0 mA j2 tlA hAq'
  obtain ⟨hBl, tlB, hBq⟩ :=
    executeJob_user H { mA with queue := tlA } ⟨2, 2⟩ .Fulfill h2 v
  rw [step1, step2, runQueue_zero, hj2, hBl]
  rw [show ({ mA with queue := tlA } : Machine).log = mA.log from rfl, hAl']
  rfl

/-!  C8: list lemmas and the state/result well-formedness invariant. -/

theorem listGetD_ge {α : Type} (l : List α) (i : Nat) (d : α)
    (h : l.length ≤ i) : l.getD i d = d := by
  induction l generalizing i with
  | nil => simp [List.getD]
  | cons a t ih =>
    cases i with
    | zero => simp at h
    | succ n => simpa using ih n (by simpa using h)

theorem listGetD_append_left {α : Type} (l l' : List α) (i : Nat) (d : α)
    (h : i < l.length) : (l ++ l').getD i d = l.getD i d := by
  induction l generalizing i with
  | nil => simp at h
  | cons a t ih =>
    cases i with
    | zero => rfl
    | succ n => simpa using ih n (by simpa using h)

theorem listAll_getD {α : Type} (l : List α) (p : α → Bool) (i : Nat) (d : α)
    (h : l.all p = true) (hd : p d = true) : p (l.getD i d) = true := by
  induction l generalizing i with
  | nil => simpa using hd
  | cons a t ih =>
    rw [List.all_cons, Bool.and_eq_true] at h
    cases i with
    | zero => simpa using h.1
    | succ n => simpa using ih n h.2

theorem listAll_set {α : Type} (l : List α) (p : α → Bool) (i : Nat) (r : α)
    (h : l.all p = true) (hr : p r = true) : (l.set i r).all p = true := by
  induction l generalizing i with
  | nil => simp
  | cons a t ih =>
    rw [List.all_cons, Bool.and_eq_true] at h
    cases i with
    | zero =>
      rw [List.set, List.all_cons, Bool.and_eq_true]
      exact ⟨hr, h.2⟩
    | succ n =>
      rw [List.set, List.all_cons, Bool.and_eq_true]
      exact ⟨h.1, ih n h.2⟩

/-- The state/result invariant of a settlement record: `result` is defined
(`isSome`) exactly when the state is not Pending. -/
def wfRec (p : PromiseRec) : Bool :=
  match p.state with
  | .pending => p.result.isNone
  | _ => p.result.isSome

/-- The invariant, over every promise record of the machine. -/
def wfMachine (m : Machine) : Bool := m.promises.all wfRec

theorem wfRec_initial : wfRec PromiseRec.initial = true := rfl

theorem wfRec_getProm (m : Machine) (pid : Nat) (h : wfMachine m = true) :
    wfRec (m.getProm pid) = true :=
  listAll_getD _ _ _ _ h wfRec_initial

theorem wf_fulfillPromise (m : Machine) (pid : Nat) (v : Value)
    (h : wfMachine m = true) : wfMachine (fulfillPromise m pid v) = true := by
  unfold fulfillPromise
  dsimp only
  split
  · exact h
  · exact listAll_set _ _ _ _ h rfl

theorem wf_rejectPromise (m : Machine) (pid : Nat) (v : Value)
    (h : wfMachine m = true) : wfMachine (rejectPromise m pid v) = true := by
  unfold rejectPromise
  dsimp only
  split
  · exact h
  · exact listAll_set _ _ _ _ h rfl

theorem wf_resolveFn (m : Machine) (pairId pid : Nat) (v : Value)
    (h : wfMachine m = true) : wfMachine (resolveFn m pairId pid v) = true := by
  unfold resolveFn
  dsimp only
  repeat' split
  all_goals first
    | exact h
    | exact wf_rejectPromise _ _ _ h
    | exact wf_fulfillPromise _ _ _ h

theorem wf_rejectFn (m : Machine) (pairId pid : Nat) (v : Value)
    (h : wfMachine m = true) : wfMachine (rejectFn m pairId pid v) = true := by
  unfold rejectFn
  split
  · exact h
  · exact wf_rejectPromise _ _ _ h

theorem wf_performPromiseThen (m : Machine) (pid : Nat)
    (onF onR : Option HandlerFn) (cap : Capability)
    (h : wfMachine m = true) :
    wfMachine ((performPromiseThen m pid onF onR cap).1) = true := by
  unfold performPromiseThen
  dsimp only
  split
  · exact listAll_set _ _ _ _ h (wfRec_getProm m pid h)
  · exact h
  · exact h

theorem wf_thenOp (m : Machine) (pid : Nat) (onF onR : Option HandlerFn)
    (h : wfMachine m = true) : wfMachine ((thenOp m pid onF onR).1) = true := by
  have heq : thenOp m pid onF onR
      = performPromiseThen
          ⟨m.promises ++ [PromiseRec.initial], m.pairFlags ++ [false], m.queue, m.log⟩
          pid onF onR ⟨m.promises.length, m.pairFlags.length⟩ := rfl
  rw [heq]
  apply wf_performPromiseThen
  show (m.promises ++ [PromiseRec.initial]).all wfRec = true
  rw [List.all_append]
  have h1 : m.promises.all wfRec = true := h
  rw [h1]
  rfl

theorem wf_promiseReactionJob (H : Nat → Value → Except Value Value)
    (m : Machine) (r : Reaction) (arg : Value)
    (h : wfMachine m = true) :
    wfMachine (promiseReactionJob H m r arg) = true := by
  unfold promiseReactionJob invokeHandler
  rcases r with ⟨cap, ty, handler⟩
  cases handler with
  | none =>
    cases ty
    · exact wf_resolveFn _ _ _ _ h
    · exact wf_rejectFn _ _ _ _ h
  | some hf =>
    cases hf with
    | user i =>
      cases hH : H i arg with
      | ok rv => simp only [hH]; exact wf_resolveFn _ _ _ _ h
      | error e => simp only [hH]; exact wf_rejectFn _ _ _ _ h
    | pairResolve p q =>
      exact wf_resolveFn _ _ _ _ (wf_resolveFn _ _ _ _ h)
    | pairReject p q =>
      exact wf_resolveFn _ _ _ _ (wf_rejectFn _ _ _ _ h)

theorem wf_promiseResolveThenableJob (m : Machine) (pid : Nat) (res : Value)
    (h : wfMachine m = true) :
    wfMachine (promiseResolveThenableJob m pid res) = true := by
  unfold promiseResolveThenableJob
  dsimp only
  split
  · exact wf_resolveFn _ _ _ _ h
  · exact wf_rejectFn _ _ _ _ h
  · exact wf_rejectFn _ _ _ _ h
  · exact h
  · exact wf_thenOp _ _ _ _ h
  · exact h

theorem wf_executeJob (H : Nat → Value → Except Value Value) (m : Machine)
    (j : Job) (h : wfMachine m = true) :
    wfMachine (executeJob H m j) = true := by
  cases j with
  | reaction r arg => exact wf_promiseReactionJob H m r arg h
  | thenable pid res => exact wf_promiseResolveThenableJob m pid res h

theorem runQueue_nil (H : Nat → Value → Except Value Value) (n : Nat)
    (m : Machine) (h : m.queue = []) : runQueue H (n + 1) m = m := by
  obtain ⟨ps, fl, q, lg⟩ := m
  cases h
  rfl

theorem wf_runQueue (H : Nat → Value → Except Value Value) (fuel : Nat) :
    ∀ m : Machine, wfMachine m = true → wfMachine (runQueue H fuel m) = true := by
  induction fuel with
  | zero => exact fun m h => h
  | succ n ih =>
    intro m h
    cases hq : m.queue with
    | nil => rw [runQueue_nil H n m hq]; exact h
    | cons j rest =>
      rw [runQueue_cons H n m j rest hq]
      exact ih _ (wf_executeJob H _ j h)

/-- Registering a reaction on a non-pending promise leaves that promise's
reaction lists untouched (`performPromiseThen` only schedules a job). -/
theorem thenOp_settled_reactions_unchanged (m : Machine) (pid : Nat)
    (onF onR : Option HandlerFn) (hnp : (m.getProm pid).state ≠ PState.pending) :
    (((thenOp m pid onF onR).1).getProm pid).fulfillReactions
        = (m.getProm pid).fulfillReactions
    ∧ (((thenOp m pid onF onR).1).getProm pid).rejectReactions
        = (m.getProm pid).rejectReactions := by
  have hlt : pid < m.promises.length := by
    rcases Nat.lt_or_ge pid m.promises.length with hlt | hge
    · exact hlt
    · exfalso
      apply hnp
      show (m.getProm pid).state = PState.pending
      unfold Machine.getProm
      rw [listGetD_ge _ _ _ hge]
      rfl
  have heq : thenOp m pid onF onR
      = performPromiseThen
          ⟨m.promises ++ [PromiseRec.initial], m.pairFlags ++ [false], m.queue, m.log⟩
          pid onF onR ⟨m.promises.length, m.pairFlags.length⟩ := rfl
  have hMg : (⟨m.promises ++ [PromiseRec.initial], m.pairFlags ++ [false],
        m.queue, m.log⟩ : Machine).getProm pid = m.getProm pid := by
    show (m.promises ++ [PromiseRec.initial]).getD pid PromiseRec.initial = _
    exact listGetD_append_left _ _ _ _ hlt
  rw [heq]
  unfold performPromiseThen
  dsimp only
  rw [hMg]
  split
  · exact absurd (by assumption) hnp
  · exact ⟨by rw [getProm_enqueue, hMg], by rw [getProm_enqueue, hMg]⟩
  · exact ⟨by rw [getProm_enqueue, hMg], by rw [getProm_enqueue, hMg]⟩

/-- Settling a pending promise sets its state and result but leaves both
reaction lists exactly as they were: the source's clearing assignments are
silent no-ops (non-writable properties, sloppy mode). -/
theorem fulfillPromise_keeps_reactions (m : Machine) (pid : Nat) (v : Value)
    (hp : (m.getProm pid).state = PState.pending) (hlt : pid < m.promises.length) :
    ((fulfillPromise m pid v).getProm pid).state = PState.fulfilled
    ∧ ((fulfillPromise m pid v).getProm pid).result = some v
    ∧ ((fulfillPromise m pid v).getProm pid).fulfillReactions
        = (m.getProm pid).fulfillReactions
    ∧ ((fulfillPromise m pid v).getProm pid).rejectReactions
        = (m.getProm pid).rejectReactions := by
  have hguard : ¬ ((m.getProm pid).state ≠ PState.pending) := by simp [hp]
  unfold fulfillPromise
  dsimp only
  rw [if_neg hguard]
  simp only [getProm_trigger]
  rw [getProm_setProm_self _ _ _ hlt]
  exact ⟨rfl, rfl, rfl, rfl⟩

/-- C8, counterexample: register a handler on a pending future (its reaction
lists become non-empty), then fulfill it.  After settlement the record is
Fulfilled yet both reaction lists still hold their reaction records — they
are `some [...]`, not the `none` that models the undefined marker the claim
says they are set to.  (The source's clearing assignments target the
non-writable `PromiseFulfillReactions`/`PromiseRejectReactions` properties in
sloppy mode and silently fail.) -/
theorem claim8_counterexample_lists_not_discarded :
    ((fulfillPromise ((thenOp mOnePending 0 (some (.user 5)) none).1)
        0 (.vPrim 1)).getProm 0).state = PState.fulfilled
    ∧ ((fulfillPromise ((thenOp mOnePending 0 (some (.user 5)) none).1)
        0 (.vPrim 1)).getProm 0).fulfillReactions
        = some [⟨⟨1, 1⟩, .Fulfill, some (.user 5)⟩]
    ∧ ((fulfillPromise ((thenOp mOnePending 0 (some (.user 5)) none).1)
        0 (.vPrim 1)).getProm 0).rejectReactions
        = some [⟨⟨1, 1⟩, .Reject, none⟩] := by
  decide

/-- C8, amended: the reaction lists are populated only while the state is
Pending, and `result` is defined iff the state is not Pending — but at
settlement the lists are *not* discarded (the clearing writes are silent
no-ops in the source; the lists retain their already-consumed contents).
Concretely: the state/result invariant `wfMachine` is preserved by the
resolving functions, by `then`, and by draining the job queue; `then` on a
non-pending promise leaves its reaction lists unchanged (so the lists only
ever grow while Pending); and settling a pending promise sets state and
result while leaving both reaction lists exactly as they were. -/
theorem claim8_amended_reaction_and_result_invariants
    (H : Nat → Value → Except Value Value) (m : Machine)
    (pid pairId fuel : Nat) (v : Value) (onF onR : Option HandlerFn)
    (hwf : wfMachine m = true) :
    wfMachine (resolveFn m pairId pid v) = true
    ∧ wfMachine (rejectFn m pairId pid v) = true
    ∧ wfMachine ((thenOp m pid onF onR).1) = true
    ∧ wfMachine (runQueue H fuel m) = true
    ∧ ((m.getProm pid).state ≠ PState.pending →
        (((thenOp m pid onF onR).1).getProm pid).fulfillReactions
            = (m.getProm pid).fulfillReactions
        ∧ (((thenOp m pid onF onR).1).getProm pid).rejectReactions
            = (m.getProm pid).rejectReactions)
    ∧ ((m.getProm pid).state = PState.pending → pid < m.promises.length →
        ((fulfillPromise m pid v).getProm pid).state = PState.fulfilled
        ∧ ((fulfillPromise m pid v).getProm pid).result = some v
        ∧ ((fulfillPromise m pid v).getProm pid).fulfillReactions
            = (m.getProm pid).fulfillReactions
        ∧ ((fulfillPromise m pid v).getProm pid).rejectReactions
            = (m.getProm pid).rejectReactions) :=
  ⟨wf_resolveFn _ _ _ _ hwf,
   wf_rejectFn _ _ _ _ hwf,
   wf_thenOp _ _ _ _ hwf,
   wf_runQueue H fuel m hwf,
   fun hnp => thenOp_settled_reactions_unchanged m pid onF onR hnp,
   fun hp hlt => fulfillPromise_keeps_reactions m pid v hp hlt⟩

/-- Witness for C8's amended theorem at a concrete input. -/
theorem claim8_amended_reaction_and_result_invariants_witness :
    wfMachine (resolveFn mOnePending 0 0 (.vPrim 1)) = true
    ∧ wfMachine (rejectFn mOnePending 0 0 (.vPrim 1)) = true
    ∧ wfMachine ((thenOp mOnePending 0 (some (.user 5)) none).1) = true
    ∧ wfMachine (runQueue (fun _ _ => .ok .vUndefined) 3 mOnePending) = true
    ∧ ((mOnePending.getProm 0).state ≠ PState.pending →
        (((thenOp mOnePending 0 (some (.user 5)) none).1).getProm 0).fulfillReactions
            = (mOnePending.getProm 0).fulfillReactions
        ∧ (((thenOp mOnePending 0 (some (.user 5)) none).1).getProm 0).rejectReactions
            = (mOnePending.getProm 0).rejectReactions)
    ∧ ((mOnePending.getProm 0).state = PState.pending → 0 < mOnePending.promises.length →
        ((fulfillPromise mOnePending 0 (.vPrim 1)).getProm 0).state = PState.fulfilled
        ∧ ((fulfillPromise mOnePending 0 (.vPrim 1)).getProm 0).result = some (.vPrim 1)
        ∧ ((fulfillPromise mOnePending 0 (.vPrim 1)).getProm 0).fulfillReactions
            = (mOnePending.getProm 0).fulfillReactions
        ∧ ((fulfillPromise mOnePending 0 (.vPrim 1)).getProm 0).rejectReactions
            = (mOnePending.getProm 0).rejectReactions) :=
  claim8_amended_reaction_and_result_invariants
    (fun _ _ => .ok .vUndefined) mOnePending 0 0 3 (.vPrim 1)
    (some (.user 5)) none (by decide)
